import Mathlib

/- Shallow embedding of the billing application in `bs2.py`.

   Python `Decimal` values are modelled as rationals (`ℚ`); every monetary
   quantity the program materialises fits a decimal with a power-of-ten
   denominator, well within `Decimal`'s default precision, so exact rational
   arithmetic matches the source's `Decimal` arithmetic on all quantities the
   program produces.  Python strings are modelled as Lean `String`s, with the
   character-level operations (`split`, prefix/suffix tests, digit parsing)
   carried out on their `List Char` contents so that they compute by kernel
   reduction.  The Tk session (`BillingApp`) is modelled as a state record
   plus a step function over user events; dialog boxes become an explicit
   list of emitted messages. -/

namespace Billing

/-- `ROUND_HALF_UP` rounding of a decimal to an integer: round to nearest,
ties away from zero (Python `decimal.ROUND_HALF_UP`). -/
def roundHalfUp (x : ℚ) : ℤ :=
  if 0 ≤ x then ⌊x + 1/2⌋ else -⌊-x + 1/2⌋

/-- `d.quantize(CURRENCY_QUANT, rounding=ROUND_HALF_UP)` with
`CURRENCY_QUANT = Decimal("0.01")`: round to two decimal places,
ties away from zero. -/
def quantize2 (x : ℚ) : ℚ :=
  (roundHalfUp (x * 100) : ℚ) / 100

/-- The two fractional digits of a cent count, as characters
(`bs2.py` renders via `Decimal.__str__` after quantizing to exponent -2). -/
def twoDigits (n : ℕ) : List Char :=
  [Nat.digitChar ((n / 10) % 10), Nat.digitChar (n % 10)]

/-- `money(d)` from `bs2.py`: format `d` quantized to 2 decimal places with
ROUND_HALF_UP.  A quantized `Decimal` with exponent -2 always prints a sign
for negative values, the integer part, a dot, and exactly two fractional
digits. -/
def money (d : ℚ) : String :=
  let c : ℤ := roundHalfUp (d * 100)
  let sign : List Char := if d < 0 then ['-'] else []
  String.mk (sign ++ Nat.toDigits 10 (c.natAbs / 100) ++ ['.'] ++ twoDigits (c.natAbs % 100))

/-- Python `str.split(sep)` for a one-character separator, on the character
list of the string.  `"".split(sep) == [""]` and every separator occurrence
produces a new (possibly empty) chunk, exactly as in Python. -/
def splitOnChar (c : Char) : List Char → List (List Char)
  | [] => [[]]
  | x :: xs =>
    let r := splitOnChar c xs
    if x = c then [] :: r
    else
      match r with
      | [] => [[x]]
      | h :: t => (x :: h) :: t

/-- Numeric value of a list of decimal digit characters. -/
def digitsVal (l : List Char) : ℕ :=
  l.foldl (fun a c => 10 * a + (c.toNat - 48)) 0

/-- Python `int(s)` on the character list of `s`: optional sign followed by a
nonempty run of decimal digits; anything else raises (modelled as `none`). -/
def parseIntChars (l : List Char) : Option ℤ :=
  let p : ℤ × List Char :=
    match l with
    | '-' :: r => (-1, r)
    | '+' :: r => (1, r)
    | r => (1, r)
  if p.2 ≠ [] ∧ p.2.all Char.isDigit then some (p.1 * digitsVal p.2) else none

/-- Python `int(s)`. -/
def parseInt (s : String) : Option ℤ :=
  parseIntChars s.data

/-- Python `Decimal(s)` on the character list of `s`: optional sign, then
either a nonempty digit run or `intpart.fracpart` with at least one digit in
total.  A string `Decimal` rejects is modelled as `none`. -/
def parseDecimalChars (l : List Char) : Option ℚ :=
  let p : ℚ × List Char :=
    match l with
    | '-' :: r => (-1, r)
    | '+' :: r => (1, r)
    | r => (1, r)
  match splitOnChar '.' p.2 with
  | [a] =>
    if a ≠ [] ∧ a.all Char.isDigit then some (p.1 * digitsVal a) else none
  | [a, b] =>
    if (a ≠ [] ∨ b ≠ []) ∧ a.all Char.isDigit ∧ b.all Char.isDigit then
      some (p.1 * ((digitsVal a : ℚ) + (digitsVal b : ℚ) / 10 ^ b.length))
    else none
  | _ => none

/-- Python `Decimal(s)`. -/
def parseDecimal (s : String) : Option ℚ :=
  parseDecimalChars s.data

/-- A catalog entry: `{"name": name, "price": price_d}` in `read_products`. -/
structure Product where
  name : String
  price : ℚ
deriving DecidableEq

/-- One `csv.DictReader` record, restricted to the columns `read_products`
looks at; `none` models a column absent from the header (`dict.get` → `None`). -/
structure Row where
  code : Option String
  id : Option String
  sku : Option String
  name : Option String
  product : Option String
  price : Option String

/-- Python `a or b` for optional strings: `None` and `""` are falsy. -/
def pyOr (a b : Option String) : Option String :=
  match a with
  | some s => if s = "" then b else some s
  | none => b

/-- Python `dict` insertion `m[k] = v`: overwrite the value in place when the
key is present, otherwise append the new binding. -/
def dictInsert {α : Type} : List (String × α) → String → α → List (String × α)
  | [], k, v => [(k, v)]
  | (k', v') :: m, k, v =>
    if k' = k then (k, v) :: m else (k', v') :: dictInsert m k v

/-- The body of the `for r in reader` loop of `read_products`: resolve the
code/name/price fields through their aliases, skip records with no non-empty
code, degrade an unparseable price to `0`, and store into the dict. -/
def readRow (products : List (String × Product)) (r : Row) : List (String × Product) :=
  let code := pyOr (pyOr r.code r.id) r.sku
  let name := (pyOr (pyOr r.name r.product) (some "")).getD ""
  let price := (pyOr r.price (some "0")).getD "0"
  match code with
  | none => products
  | some c =>
    if c = "" then products
    else dictInsert products c ⟨name, (parseDecimal price).getD 0⟩

/-- `read_products(path)`: `none` models a missing file (`os.path.exists`
false → empty dict); `some rows` models the parsed CSV records. -/
def read_products (file : Option (List Row)) : List (String × Product) :=
  match file with
  | none => []
  | some rows => rows.foldl readRow []

/-- The per-filename body of the scan loop in `next_invoice_number`:
`fname.startswith("invoice_") and fname.endswith(".csv")`, then
`int(fname.split("_")[1].split(".")[0])`, with any exception ignored. -/
def extractId (fname : String) : Option ℤ :=
  let cs := fname.data
  if "invoice_".data.isPrefixOf cs && ".csv".data.isSuffixOf cs then
    match (splitOnChar '_' cs)[1]? with
    | none => none
    | some s1 => parseIntChars ((splitOnChar '.' s1).headD [])
  else none

/-- The list `nums` accumulated by `next_invoice_number`'s scan over the
store directory's filenames. -/
def invoiceIds (files : List String) : List ℤ :=
  files.filterMap extractId

/-- `next_invoice_number()`: `max(nums + [0]) + 1` over the directory
listing; a missing or just-created directory is the empty listing. -/
def next_invoice_number (files : List String) : ℤ :=
  (invoiceIds files).foldl max 0 + 1

/-- `GST_DEFAULT = Decimal("18.0")`. -/
def GST_DEFAULT : ℚ := 18

/-- A cart entry `{code,name,price,qty,line_total}`. -/
structure CartLine where
  code : String
  name : String
  price : ℚ
  qty : ℤ
  line_total : ℚ
deriving DecidableEq

/-- The subtotal accumulation loop of `update_totals`. -/
def sumLineTotals (cart : List CartLine) : ℚ :=
  cart.foldl (fun a it => a + it.line_total) 0

/-- The `for item in self.cart` merge loop of `add_selected_product`:
increment the first line with the given code and recompute its `line_total`
from its original unit price and the new quantity. -/
def cartIncr (code : String) (qty : ℤ) : List CartLine → List CartLine
  | [] => []
  | it :: rest =>
    if it.code == code then
      { it with qty := it.qty + qty,
                line_total := quantize2 (it.price * ((it.qty + qty : ℤ) : ℚ)) } :: rest
    else it :: cartIncr code qty rest

/-- The cart mutation of `add_selected_product` once a code has been read off
the selection: `none` when the code is not in the catalog (silent early
return) or the quantity is not positive (warning dialog); otherwise the
merged or extended cart. -/
def add_to_cart (products : List (String × Product)) (cart : List CartLine)
    (code : String) (qty : ℤ) : Option (List CartLine) :=
  match List.lookup code products with
  | none => none
  | some prod =>
    if qty ≤ 0 then none
    else some
      (if cart.any (fun it => it.code == code) then cartIncr code qty cart
       else cart ++ [⟨code, prod.name, prod.price, qty, quantize2 (prod.price * (qty : ℚ))⟩])

/-- `remove_selected`'s per-selection loop: delete the first cart line with
the given code (no-op when absent). -/
def remove_line (code : String) : List CartLine → List CartLine
  | [] => []
  | it :: rest => if it.code == code then rest else it :: remove_line code rest

/-- The dialog boxes the modelled operations can raise. -/
inductive Msg where
  | warnQty
  | warnEmptyInvoice
  | warnEmptyExport
  | savedInvoice (n : ℤ)
  | exported
deriving DecidableEq

/-- The user events dispatched to the session.  `add` carries the code read
off the product-list selection and the content of the quantity field;
`setGst` carries the parsed content of the GST entry after an edit (`none`
when the new text does not parse as a decimal); `clearCart` carries the
answer to the confirmation dialog. -/
inductive Event where
  | add (code : String) (qty : ℤ)
  | removeSel (code : String)
  | clearCart (confirmed : Bool)
  | setGst (v : Option ℚ)
  | generate
  | exportCsv
deriving DecidableEq

/-- The session state of `BillingApp`: catalog, cart, the parsed content of
the GST entry (`none` = unparseable text), the five stored total fields, and
the invoice store directory listing. -/
structure AppState where
  products : List (String × Product)
  cart : List CartLine
  gst_var : Option ℚ
  subtotal : ℚ
  gst_total : ℚ
  cgst : ℚ
  sgst : ℚ
  grand_total : ℚ
  invoices : List String
deriving DecidableEq

/-- `update_totals`: recompute subtotal, GST, the CGST/SGST split and the
grand total from the current cart and the current GST-entry text; on a parse
failure fall back to `GST_DEFAULT` and write it back into the entry. -/
def update_totals (s : AppState) : AppState :=
  let subtotal := sumLineTotals s.cart
  let gp : ℚ × Option ℚ :=
    match s.gst_var with
    | some r => (r, some r)
    | none => (GST_DEFAULT, some GST_DEFAULT)
  let gst_total := quantize2 (subtotal * gp.1 / 100)
  let cgst := quantize2 (gst_total / 2)
  let sgst := gst_total - cgst
  let grand_total := quantize2 (subtotal + gst_total)
  { s with gst_var := gp.2, subtotal := subtotal, gst_total := gst_total,
           cgst := cgst, sgst := sgst, grand_total := grand_total }

/-- The two files `generate_invoice` writes for invoice number `n`. -/
def invoiceFiles (n : ℤ) : List String :=
  ["invoice_" ++ toString n ++ ".csv", "invoice_" ++ toString n ++ ".html"]

/-- One step of the session: the handler the given event dispatches to in
`BillingApp`, returning the new state and the dialog messages shown. -/
def step (s : AppState) : Event → AppState × List Msg
  | .add code qty =>
    match add_to_cart s.products s.cart code qty with
    | some cart' => (update_totals { s with cart := cart' }, [])
    | none =>
      if (List.lookup code s.products).isSome then (s, [Msg.warnQty]) else (s, [])
  | .removeSel code => (update_totals { s with cart := remove_line code s.cart }, [])
  | .clearCart true => (update_totals { s with cart := [] }, [])
  | .clearCart false => (s, [])
  | .setGst v => ({ s with gst_var := v }, [])
  | .generate =>
    if s.cart = [] then (s, [Msg.warnEmptyInvoice])
    else
      let n := next_invoice_number s.invoices
      (update_totals { s with cart := [], invoices := s.invoices ++ invoiceFiles n },
       [Msg.savedInvoice n])
  | .exportCsv =>
    if s.cart = [] then (s, [Msg.warnEmptyExport]) else (s, [Msg.exported])

/-- `BillingApp.__init__`: empty cart, GST entry holding the default rate,
`update_totals()` run once before any event. -/
def initState (products : List (String × Product)) : AppState :=
  update_totals
    { products := products, cart := [], gst_var := some GST_DEFAULT,
      subtotal := 0, gst_total := 0, cgst := 0, sgst := 0, grand_total := 0,
      invoices := [] }

/-- Run a sequence of events from a state; `run (initState p) evs` ranges
over exactly the reachable session states. -/
def run (s : AppState) : List Event → AppState
  | [] => s
  | e :: es => run (step s e).1 es

/-- The rate `update_totals` would use for the current GST-entry content. -/
def effRate (s : AppState) : ℚ :=
  s.gst_var.getD GST_DEFAULT

/-- The Totals invariants of the spec, relating the five stored total fields
to the current cart and the current GST-entry content. -/
def totalsInvariant (s : AppState) : Prop :=
  s.subtotal = sumLineTotals s.cart ∧
  s.gst_total = quantize2 (s.subtotal * effRate s / 100) ∧
  s.cgst = quantize2 (s.gst_total / 2) ∧
  s.sgst = s.gst_total - s.cgst ∧
  s.grand_total = quantize2 (s.subtotal + s.gst_total)

/-- At most one cart line per product code. -/
def nodupCodes (cart : List CartLine) : Prop :=
  (cart.map CartLine.code).Nodup

end Billing

namespace Billing

/- ------------------------------------------------------------------ -/
/- Helper lemmas                                                      -/
/- ------------------------------------------------------------------ -/

/-- `update_totals` establishes all five Totals invariants, for any state. -/
theorem update_totals_invariant (s : AppState) : totalsInvariant (update_totals s) := by
  cases hg : s.gst_var <;>
    simp [totalsInvariant, update_totals, effRate, hg]

/-- Sample catalog with one product `X` priced 10. -/
def pX : List (String × Product) := [("X", ⟨"Widget", 10⟩)]

/-- The state of the C2 scenario before `update_totals` runs: one cart line
of unit price 10 and quantity 3, GST entry holding 18. -/
def baseX : AppState :=
  { products := pX,
    cart := [⟨"X", "X", 10, 3, quantize2 (10 * (3 : ℚ))⟩],
    gst_var := some 18, subtotal := 0, gst_total := 0, cgst := 0, sgst := 0,
    grand_total := 0, invoices := [] }

end Billing

namespace Billing

/- ------------------------------------------------------------------ -/
/- C1                                                                 -/
/- ------------------------------------------------------------------ -/

/-- C1: for every session state, the totals computed by `update_totals`
satisfy `cgst = round_half_up(gst_total / 2, 2)` and
`sgst = gst_total - cgst`, hence `cgst + sgst = gst_total` exactly; the
reconciliation identity holds for every rational tax total, and an odd-cent
tax total of 0.01 splits as 0.01 and 0.00. -/
theorem C1_tax_split_exact (s : AppState) :
    (update_totals s).cgst = quantize2 ((update_totals s).gst_total / 2) ∧
    (update_totals s).sgst = (update_totals s).gst_total - (update_totals s).cgst ∧
    (update_totals s).cgst + (update_totals s).sgst = (update_totals s).gst_total ∧
    (∀ t : ℚ, quantize2 (t / 2) + (t - quantize2 (t / 2)) = t) ∧
    quantize2 ((1/100 : ℚ) / 2) = 1/100 ∧
    (1/100 : ℚ) - quantize2 ((1/100 : ℚ) / 2) = 0 := by
  refine ⟨?_, ?_, ?_, fun t => by ring, ?_, ?_⟩
  · simp [update_totals]
  · simp [update_totals]
  · simp [update_totals]
  · norm_num [quantize2, roundHalfUp]
  · norm_num [quantize2, roundHalfUp]

/- ------------------------------------------------------------------ -/
/- C2                                                                 -/
/- ------------------------------------------------------------------ -/

/-- C2: for every state whose GST entry parses to a rate `r`,
`update_totals` computes `subtotal` as the sum of the cart's line totals,
`gst_total = round_half_up(subtotal * r / 100, 2)` and
`grand_total = round_half_up(subtotal + gst_total, 2)`; on the scenario cart
(one line, unit price 10, quantity 3) at rate 18 it yields subtotal 30,
tax 5.40, splits 2.70/2.70 and grand total 35.40. -/
theorem C2_totals_formulas (s : AppState) (r : ℚ) (h : s.gst_var = some r) :
    (update_totals s).subtotal = sumLineTotals s.cart ∧
    (update_totals s).gst_total = quantize2 ((update_totals s).subtotal * r / 100) ∧
    (update_totals s).grand_total =
      quantize2 ((update_totals s).subtotal + (update_totals s).gst_total) ∧
    (update_totals baseX).subtotal = 30 ∧
    (update_totals baseX).gst_total = 27/5 ∧
    (update_totals baseX).cgst = 27/10 ∧
    (update_totals baseX).sgst = 27/10 ∧
    (update_totals baseX).grand_total = 177/5 := by
  refine ⟨?_, ?_, ?_, ?_⟩
  · simp [update_totals]
  · simp [update_totals, h]
  · simp [update_totals, h]
  · norm_num [update_totals, baseX, pX, sumLineTotals, quantize2, roundHalfUp]

/-- Witness for C2 at the scenario state and rate 18. -/
theorem C2_totals_formulas_witness :
    (update_totals baseX).subtotal = sumLineTotals baseX.cart ∧
    (update_totals baseX).gst_total = quantize2 ((update_totals baseX).subtotal * 18 / 100) ∧
    (update_totals baseX).grand_total =
      quantize2 ((update_totals baseX).subtotal + (update_totals baseX).gst_total) ∧
    (update_totals baseX).subtotal = 30 ∧
    (update_totals baseX).gst_total = 27/5 ∧
    (update_totals baseX).cgst = 27/10 ∧
    (update_totals baseX).sgst = 27/10 ∧
    (update_totals baseX).grand_total = 177/5 :=
  C2_totals_formulas baseX 18 rfl

end Billing

namespace Billing

/- ------------------------------------------------------------------ -/
/- C9                                                                 -/
/- ------------------------------------------------------------------ -/

/-- C9 counterexample: a reachable session state that violates the Totals
invariants with respect to the current rate-field value.  Adding product `X`
(quantity 3, subtotal 30, stored GST 5.40) and then editing the GST entry to
0 triggers no recomputation, so the stored `gst_total` is not
`round_half_up(subtotal * 0 / 100, 2) = 0`. -/
theorem C9_counterexample :
    ¬ totalsInvariant (run (initState pX) [Event.add "X" 3, Event.setGst (some 0)]) := by
  intro h
  have h2 := h.2.1
  simp [run, step, add_to_cart, initState, update_totals, sumLineTotals,
    totalsInvariant, effRate, cartIncr, pX, GST_DEFAULT] at h2
  norm_num [quantize2, roundHalfUp] at h2

/-- C9 (amended): the stored Totals satisfy the invariants in the initial
state and after every event except an edit of the GST rate field; a rate
edit alone triggers no recomputation, so it is the only event that can break
the invariants. -/
theorem C9_totals_recomputed :
    (∀ p : List (String × Product), totalsInvariant (initState p)) ∧
    (∀ (s : AppState) (e : Event), (∀ v, e ≠ Event.setGst v) →
      totalsInvariant s → totalsInvariant (step s e).1) := by
  refine ⟨fun p => update_totals_invariant _, fun s e hne h => ?_⟩
  cases e with
  | add code qty =>
    cases hadd : add_to_cart s.products s.cart code qty with
    | some cart' =>
      simp only [step, hadd]
      exact update_totals_invariant _
    | none =>
      simp only [step, hadd]
      split <;> exact h
  | removeSel code => exact update_totals_invariant _
  | clearCart confirmed =>
    cases confirmed with
    | true => exact update_totals_invariant _
    | false => exact h
  | setGst v => exact absurd rfl (hne v)
  | generate =>
    by_cases hc : s.cart = []
    · simpa [step, hc] using h
    · simp only [step, if_neg hc]
      exact update_totals_invariant _
  | exportCsv =>
    by_cases hc : s.cart = []
    · simpa [step, hc] using h
    · simpa [step, hc] using h

/-- Witness for C9 (amended) at a concrete state and a concrete non-rate
event. -/
theorem C9_totals_recomputed_witness :
    totalsInvariant (initState pX) ∧
    totalsInvariant (step (initState pX) Event.exportCsv).1 :=
  ⟨C9_totals_recomputed.1 pX,
   C9_totals_recomputed.2 (initState pX) Event.exportCsv
     (fun _ h => Event.noConfusion h) (C9_totals_recomputed.1 pX)⟩

/- ------------------------------------------------------------------ -/
/- C8                                                                 -/
/- ------------------------------------------------------------------ -/

/-- C8: with an empty cart, both invoice generation and cart export leave
the whole session state (cart, totals, invoice store) unchanged and only
show a warning: no invoice number is consumed and no file is written. -/
theorem C8_empty_cart_rejected (s : AppState) (h : s.cart = []) :
    step s Event.generate = (s, [Msg.warnEmptyInvoice]) ∧
    step s Event.exportCsv = (s, [Msg.warnEmptyExport]) := by
  simp [step, h]

/-- Witness for C8 at the freshly initialised (empty-cart) session. -/
theorem C8_empty_cart_rejected_witness :
    step (initState pX) Event.generate = (initState pX, [Msg.warnEmptyInvoice]) ∧
    step (initState pX) Event.exportCsv = (initState pX, [Msg.warnEmptyExport]) :=
  C8_empty_cart_rejected (initState pX) rfl

/- ------------------------------------------------------------------ -/
/- C5                                                                 -/
/- ------------------------------------------------------------------ -/

/-- C5 counterexample: adding a code absent from the catalog is rejected
with the cart (indeed the whole state) unchanged, but silently — the handler
returns early without any dialog, so the rejection is not reported to the
user as the claim states. -/
theorem C5_counterexample :
    List.lookup "Z" (initState pX).products = none ∧
    (step (initState pX) (Event.add "Z" 1)).1 = initState pX ∧
    (step (initState pX) (Event.add "Z" 1)).2 = [] := by
  refine ⟨by simp [initState, update_totals, pX], ?_, ?_⟩ <;>
    simp [step, add_to_cart, List.lookup, initState, update_totals, pX]

/-- C5 (amended): adding fails whenever the quantity is not positive or the
code is not in the catalog, and on every failure the session state is
unchanged; a failure with a catalogued code (i.e. a bad quantity) raises a
warning dialog, while an unknown code is rejected silently. -/
theorem C5_add_failures (s : AppState) (code : String) (qty : ℤ)
    (h : List.lookup code s.products = none ∨ qty ≤ 0) :
    (step s (Event.add code qty)).1 = s ∧
    (List.lookup code s.products = none → (step s (Event.add code qty)).2 = []) ∧
    (∀ prod, List.lookup code s.products = some prod →
      (step s (Event.add code qty)).2 = [Msg.warnQty]) := by
  cases hl : List.lookup code s.products with
  | none => simp [step, add_to_cart, hl]
  | some prod =>
    have hq : qty ≤ 0 := by
      rcases h with h | h
      · rw [hl] at h
        exact absurd h (by simp)
      · exact h
    simp [step, add_to_cart, hl, hq]

/-- Witness for C5 (amended): unknown code `Z`, quantity 1. -/
theorem C5_add_failures_witness :
    (step (initState pX) (Event.add "Z" 1)).1 = initState pX ∧
    (List.lookup "Z" (initState pX).products = none →
      (step (initState pX) (Event.add "Z" 1)).2 = []) ∧
    (∀ prod, List.lookup "Z" (initState pX).products = some prod →
      (step (initState pX) (Event.add "Z" 1)).2 = [Msg.warnQty]) :=
  C5_add_failures (initState pX) "Z" 1 (Or.inl (by simp [initState, update_totals, pX]))

end Billing

namespace Billing

theorem cartIncr_map_code (code : String) (qty : ℤ) (l : List CartLine) :
    (cartIncr code qty l).map CartLine.code = l.map CartLine.code := by
  induction l with
  | nil => rfl
  | cons it rest ih =>
    by_cases h : (it.code == code) = true <;>
      simp [cartIncr, h, ih]

theorem add_to_cart_nodup (p : List (String × Product)) (cart : List CartLine)
    (code : String) (qty : ℤ) (cart' : List CartLine)
    (hn : nodupCodes cart) (h : add_to_cart p cart code qty = some cart') :
    nodupCodes cart' := by
  cases hl : List.lookup code p with
  | none =>
    simp only [add_to_cart, hl] at h
    exact absurd h (by simp)
  | some prod =>
    simp only [add_to_cart, hl] at h
    by_cases hq : qty ≤ 0
    · simp only [if_pos hq] at h
      exact absurd h (by simp)
    · simp only [if_neg hq, Option.some.injEq] at h
      by_cases ha : (cart.any fun it => it.code == code) = true
      · rw [if_pos ha] at h
        subst h
        unfold nodupCodes
        rw [cartIncr_map_code]
        exact hn
      · rw [if_neg ha] at h
        subst h
        unfold nodupCodes
        have hnotin : ∀ it ∈ cart, ¬(it.code = code) := by
          intro it hit hcode
          simp only [List.any_eq_true, beq_iff_eq, not_exists, not_and] at ha
          exact ha it hit hcode
        simp only [List.map_append, List.map_cons, List.map_nil]
        rw [List.nodup_append]
        refine ⟨hn, by simp, ?_⟩
        intro a hin
        simp only [List.mem_map] at hin
        obtain ⟨it, hit, rfl⟩ := hin
        simp only [List.mem_singleton]
        intro hEq
        exact hnotin it hit hEq

theorem cartIncr_first (code : String) (qty : ℤ) (pre post : List CartLine)
    (l : CartLine) (hpre : ∀ x ∈ pre, x.code ≠ code) (hl : l.code = code) :
    cartIncr code qty (pre ++ l :: post) =
      pre ++ (⟨l.code, l.name, l.price, l.qty + qty,
        quantize2 (l.price * ((l.qty + qty : ℤ) : ℚ))⟩ : CartLine) :: post := by
  induction pre with
  | nil => simp [cartIncr, hl]
  | cons x xs ih =>
    have hx : ¬(x.code == code) = true := by
      simp only [beq_iff_eq]
      exact hpre x (List.mem_cons_self x xs)
    simp only [List.cons_append, cartIncr, hx, if_neg, ite_false, Bool.false_eq_true,
      List.append_eq]
    rw [ih (fun y hy => hpre y (List.mem_cons_of_mem x hy))]

theorem remove_line_sublist (code : String) (l : List CartLine) :
    List.Sublist (remove_line code l) l := by
  induction l with
  | nil => exact List.Sublist.refl _
  | cons it rest ih =>
    by_cases h : (it.code == code) = true
    · rw [remove_line, if_pos h]
      exact List.sublist_cons_self it rest
    · rw [remove_line, if_neg h]
      exact ih.cons₂ it

theorem step_nodupCodes (s : AppState) (e : Event) (h : nodupCodes s.cart) :
    nodupCodes (step s e).1.cart := by
  cases e with
  | add code qty =>
    cases hadd : add_to_cart s.products s.cart code qty with
    | some cart' =>
      have hc : (step s (Event.add code qty)).1.cart = cart' := by
        simp [step, hadd, update_totals]
      rw [hc]
      exact add_to_cart_nodup _ _ _ _ _ h hadd
    | none =>
      simp only [step, hadd]
      split <;> exact h
  | removeSel code =>
    have hc : (step s (Event.removeSel code)).1.cart = remove_line code s.cart := by
      simp [step, update_totals]
    rw [hc]
    exact List.Nodup.sublist ((remove_line_sublist code s.cart).map CartLine.code) h
  | clearCart confirmed =>
    cases confirmed with
    | true =>
      have hc : (step s (Event.clearCart true)).1.cart = [] := by
        simp [step, update_totals]
      rw [hc]
      exact List.nodup_nil
    | false => exact h
  | setGst v => exact h
  | generate =>
    by_cases hc : s.cart = []
    · simpa [step, hc] using h
    · have hc2 : (step s Event.generate).1.cart = [] := by
        simp [step, hc, update_totals]
      rw [hc2]
      exact List.nodup_nil
  | exportCsv =>
    by_cases hc : s.cart = [] <;> simpa [step, hc] using h

theorem run_nodupCodes (s : AppState) (evs : List Event) (h : nodupCodes s.cart) :
    nodupCodes (run s evs).cart := by
  induction evs generalizing s with
  | nil => exact h
  | cons e es ih => exact ih _ (step_nodupCodes s e h)

/- ------------------------------------------------------------------ -/
/- C3                                                                 -/
/- ------------------------------------------------------------------ -/

/-- C3: every reachable cart holds at most one line per product code; when
the code already has a (unique) line, a successful add merges into that line,
incrementing its quantity by the added quantity and recomputing its
`line_total` as `round_half_up(original unit price * new quantity, 2)`
instead of appending a duplicate; adding code `X` (unit price 10) with
quantities 2 then 3 yields a single line with quantity 5 and line total 50. -/
theorem C3_one_line_per_code :
    (∀ (p : List (String × Product)) (evs : List Event),
      nodupCodes (run (initState p) evs).cart) ∧
    (∀ (p : List (String × Product)) (code : String) (qty : ℤ) (prod : Product)
      (pre post : List CartLine) (l : CartLine),
      List.lookup code p = some prod → 0 < qty →
      (∀ x ∈ pre, x.code ≠ code) → l.code = code →
      add_to_cart p (pre ++ l :: post) code qty =
        some (pre ++ (⟨l.code, l.name, l.price, l.qty + qty,
          quantize2 (l.price * ((l.qty + qty : ℤ) : ℚ))⟩ : CartLine) :: post)) ∧
    add_to_cart pX ((add_to_cart pX [] "X" 2).getD []) "X" 3 =
      some [⟨"X", "Widget", 10, 5, 50⟩] := by
  refine ⟨?_, ?_, ?_⟩
  · intro p evs
    exact run_nodupCodes _ evs (by simp [initState, update_totals, nodupCodes])
  · intro p code qty prod pre post l hp hq hpre hl
    have hany : ((pre ++ l :: post).any fun it => it.code == code) = true := by
      simp only [List.any_eq_true, beq_iff_eq]
      exact ⟨l, by simp, hl⟩
    rw [add_to_cart, hp]
    simp only [if_neg (not_le.mpr hq), if_pos hany]
    rw [cartIncr_first code qty pre post l hpre hl]
  · simp [add_to_cart, List.lookup, pX, cartIncr]
    norm_num [quantize2, roundHalfUp]

/-- Witness for C3: the merge lemma applied to a singleton cart, and the
reachable-cart lemma at the double-add event list. -/
theorem C3_one_line_per_code_witness :
    nodupCodes (run (initState pX) [Event.add "X" 2, Event.add "X" 3]).cart ∧
    add_to_cart pX ([] ++ (⟨"X", "Widget", 10, 2, 20⟩ : CartLine) :: []) "X" 3 =
      some ([] ++ (⟨"X", "Widget", 10, 2 + 3,
        quantize2 (10 * ((2 + 3 : ℤ) : ℚ))⟩ : CartLine) :: []) :=
  ⟨C3_one_line_per_code.1 pX _,
   C3_one_line_per_code.2.1 pX "X" 3 ⟨"Widget", 10⟩ [] [] ⟨"X", "Widget", 10, 2, 20⟩
     (by decide) (by norm_num) (by simp) rfl⟩

end Billing

namespace Billing

/- ------------------------------------------------------------------ -/
/- C4                                                                 -/
/- ------------------------------------------------------------------ -/

/-- C4: `money` always renders a dot followed by exactly two fractional
digits; the rounding rounds ties away from zero (for every integer `c ≥ 0`,
`c + 0.5` rounds to `c + 1` and `-(c + 0.5)` to `-(c + 1)`); in particular
1.005 renders as "1.01" and 1.004 as "1.00". -/
theorem C4_money_format :
    (∀ a : ℚ, ∃ s t : String, money a = s ++ "." ++ t ∧ t.length = 2) ∧
    (∀ c : ℤ, 0 ≤ c →
      roundHalfUp ((c : ℚ) + 1/2) = c + 1 ∧
      roundHalfUp (-((c : ℚ) + 1/2)) = -(c + 1)) ∧
    money (1005/1000) = "1.01" ∧ money (1004/1000) = "1.00" := by
  refine ⟨?_, ?_, ?_, ?_⟩
  · intro a
    refine ⟨String.mk ((if a < 0 then ['-'] else []) ++
        Nat.toDigits 10 ((roundHalfUp (a * 100)).natAbs / 100)),
      String.mk (twoDigits ((roundHalfUp (a * 100)).natAbs % 100)), ?_, rfl⟩
    show money a = String.mk _
    simp [money, List.append_assoc]
  · intro c hc
    have hpos : (0 : ℚ) < (c : ℚ) + 1/2 := by
      have : (0 : ℚ) ≤ (c : ℚ) := by exact_mod_cast hc
      linarith
    constructor
    · rw [roundHalfUp, if_pos (le_of_lt hpos)]
      have heq : (c : ℚ) + 1/2 + 1/2 = ((c + 1 : ℤ) : ℚ) := by push_cast; ring
      rw [heq, Int.floor_intCast]
    · rw [roundHalfUp, if_neg (by linarith)]
      have heq : -(-((c : ℚ) + 1/2)) + 1/2 = ((c + 1 : ℤ) : ℚ) := by push_cast; ring
      rw [heq, Int.floor_intCast]
  · norm_num [money, roundHalfUp]
    decide
  · norm_num [money, roundHalfUp]
    decide

/-- Witness for C4: the tie lemma at `c = 3` and the shape lemma at 1.5. -/
theorem C4_money_format_witness :
    (∃ s t : String, money (3/2) = s ++ "." ++ t ∧ t.length = 2) ∧
    (0 : ℤ) ≤ 3 ∧
    roundHalfUp (((3 : ℤ) : ℚ) + 1/2) = (3 : ℤ) + 1 ∧
    roundHalfUp (-(((3 : ℤ) : ℚ) + 1/2)) = -((3 : ℤ) + 1) :=
  ⟨C4_money_format.1 (3/2), by norm_num,
   (C4_money_format.2.1 3 (by norm_num)).1, (C4_money_format.2.1 3 (by norm_num)).2⟩

end Billing

namespace Billing

theorem le_foldl_max (l : List ℤ) (a : ℤ) : a ≤ l.foldl max a := by
  induction l generalizing a with
  | nil => exact le_refl a
  | cons x xs ih => exact le_trans (le_max_left a x) (ih (max a x))

theorem mem_le_foldl_max (l : List ℤ) (a : ℤ) : ∀ n ∈ l, n ≤ l.foldl max a := by
  induction l generalizing a with
  | nil =>
    intro n hn
    exact absurd hn (List.not_mem_nil n)
  | cons x xs ih =>
    intro n hn
    rcases List.mem_cons.mp hn with rfl | hn
    · exact le_trans (le_max_right a n) (le_foldl_max xs (max a n))
    · exact ih (max a x) n hn

theorem foldl_max_cases (l : List ℤ) (a : ℤ) :
    l.foldl max a = a ∨ l.foldl max a ∈ l := by
  induction l generalizing a with
  | nil => exact Or.inl rfl
  | cons x xs ih =>
    rcases ih (max a x) with h | h
    · rcases max_choice a x with hm | hm
      · left
        rw [List.foldl_cons, h, hm]
      · right
        rw [List.foldl_cons, h, hm]
        exact List.mem_cons_self x xs
    · right
      exact List.mem_cons_of_mem x h

/- ------------------------------------------------------------------ -/
/- C6 and C10                                                         -/
/- ------------------------------------------------------------------ -/

/-- C6 counterexample: the file `invoice_-5.csv` matches the recognized
pattern and its embedded token extracts to the integer -5, yet
`next_invoice_number` returns 1, not `max(found_ids) + 1 = -4`, because the
scan maximum is floored at 0. -/
theorem C6_counterexample :
    invoiceIds ["invoice_-5.csv"] = [-5] ∧
    next_invoice_number ["invoice_-5.csv"] = 1 ∧
    next_invoice_number ["invoice_-5.csv"] ≠ -5 + 1 := by decide

/-- C6 (amended): `next_invoice_number` returns `max(0, max(found_ids)) + 1`:
it always exceeds every extracted id, returns 1 on an empty or absent
directory, equals `max(found_ids) + 1` whenever some extracted id is ≥ 0,
and silently ignores filenames whose embedded token fails integer
extraction; with files numbered 1, 2, 5 it returns 6, with or without a
malformed `invoice_abc.csv` alongside. -/
theorem C6_next_invoice_scan :
    (∀ files : List String,
      1 ≤ next_invoice_number files ∧
      (∀ n ∈ invoiceIds files, n < next_invoice_number files) ∧
      ((∃ n ∈ invoiceIds files, 0 ≤ n) →
        ∃ n ∈ invoiceIds files, next_invoice_number files = n + 1 ∧
          ∀ m ∈ invoiceIds files, m ≤ n)) ∧
    next_invoice_number [] = 1 ∧
    next_invoice_number ["invoice_1.csv", "invoice_2.csv", "invoice_5.csv"] = 6 ∧
    next_invoice_number
      ["invoice_1.csv", "invoice_abc.csv", "invoice_2.csv", "invoice_5.csv"] = 6 := by
  refine ⟨?_, by decide, by decide, by decide⟩
  intro files
  have h0 : (0 : ℤ) ≤ (invoiceIds files).foldl max 0 := le_foldl_max _ 0
  refine ⟨by unfold next_invoice_number; omega, ?_, ?_⟩
  · intro n hn
    have := mem_le_foldl_max (invoiceIds files) 0 n hn
    unfold next_invoice_number
    omega
  · rintro ⟨n, hn, hn0⟩
    rcases foldl_max_cases (invoiceIds files) 0 with h | h
    · have hle : n ≤ (invoiceIds files).foldl max 0 := mem_le_foldl_max _ 0 n hn
      have hn_eq : n = 0 := le_antisymm (by omega) hn0
      refine ⟨n, hn, by unfold next_invoice_number; omega, ?_⟩
      intro m hm
      have := mem_le_foldl_max (invoiceIds files) 0 m hm
      omega
    · refine ⟨(invoiceIds files).foldl max 0, h, rfl, ?_⟩
      intro m hm
      exact mem_le_foldl_max _ 0 m hm

/-- Witness for C6 (amended) on the store holding files 1, 2 and 5. -/
theorem C6_next_invoice_scan_witness :
    1 ≤ next_invoice_number ["invoice_1.csv", "invoice_2.csv", "invoice_5.csv"] ∧
    (5 : ℤ) < next_invoice_number ["invoice_1.csv", "invoice_2.csv", "invoice_5.csv"] ∧
    (∃ n ∈ invoiceIds ["invoice_1.csv", "invoice_2.csv", "invoice_5.csv"],
      next_invoice_number ["invoice_1.csv", "invoice_2.csv", "invoice_5.csv"] = n + 1 ∧
      ∀ m ∈ invoiceIds ["invoice_1.csv", "invoice_2.csv", "invoice_5.csv"], m ≤ n) :=
  ⟨(C6_next_invoice_scan.1 _).1,
   (C6_next_invoice_scan.1 _).2.1 5 (by decide),
   (C6_next_invoice_scan.1 _).2.2 ⟨5, by decide, by decide⟩⟩

/-- C10: `next_invoice_number` is at least 1 on every directory state,
including ones whose filenames embed ids 0 or negative, because the scan
maximum is floored at 0 before the increment. -/
theorem C10_next_invoice_positive :
    (∀ files : List String, 1 ≤ next_invoice_number files) ∧
    next_invoice_number ["invoice_0.csv", "invoice_-3.csv"] = 1 := by
  constructor
  · intro files
    have h0 : (0 : ℤ) ≤ (invoiceIds files).foldl max 0 := le_foldl_max _ 0
    unfold next_invoice_number
    omega
  · decide

end Billing

namespace Billing

theorem lookup_dictInsert {α : Type} (m : List (String × α)) (k : String) (v : α) :
    List.lookup k (dictInsert m k v) = some v := by
  induction m with
  | nil => simp [dictInsert, List.lookup]
  | cons kv m ih =>
    obtain ⟨k', v'⟩ := kv
    by_cases h : k' = k
    · simp [dictInsert, h, List.lookup]
    · have hbeq : (k == k') = false := beq_eq_false_iff_ne.mpr (Ne.symm h)
      simp [dictInsert, h, List.lookup, hbeq, ih]

/- ------------------------------------------------------------------ -/
/- C7                                                                 -/
/- ------------------------------------------------------------------ -/

/-- C7: catalog loading never fails — a missing file yields an empty
mapping; a record with no non-empty code under the aliases code/id/sku is
skipped; a record whose price field is absent, empty, or unparseable gets
price 0; a duplicate code overwrites the earlier name and price ("last
wins"), so rows `A/Widget/9.999` then `A/Widget2/5.00` yield the single
entry `A ↦ (Widget2, 5.00)`. -/
theorem C7_catalog_load :
    read_products none = [] ∧
    (∀ (acc : List (String × Product)) (r : Row),
      (r.code = none ∨ r.code = some "") → (r.id = none ∨ r.id = some "") →
      (r.sku = none ∨ r.sku = some "") → readRow acc r = acc) ∧
    (∀ (acc : List (String × Product)) (r : Row) (c : String),
      pyOr (pyOr r.code r.id) r.sku = some c → c ≠ "" →
      (r.price = none ∨ r.price = some "" ∨
        ∃ ps, r.price = some ps ∧ parseDecimal ps = none) →
      readRow acc r = dictInsert acc c
        ⟨(pyOr (pyOr r.name r.product) (some "")).getD "", 0⟩) ∧
    (∀ (m : List (String × Product)) (k : String) (v : Product),
      List.lookup k (dictInsert m k v) = some v) ∧
    read_products (some
      [⟨some "A", none, none, some "Widget", none, some "9.999"⟩,
       ⟨some "A", none, none, some "Widget2", none, some "5.00"⟩]) =
      [("A", ⟨"Widget2", 5⟩)] := by
  refine ⟨rfl, ?_, ?_, lookup_dictInsert, ?_⟩
  · intro acc r h1 h2 h3
    rcases h1 with h1 | h1 <;> rcases h2 with h2 | h2 <;> rcases h3 with h3 | h3 <;>
      simp [readRow, pyOr, h1, h2, h3]
  · intro acc r c hc hcne hp
    simp only [readRow, hc]
    rw [if_neg hcne]
    rcases hp with hp | hp | ⟨ps, hp, hps⟩
    · simp [hp, pyOr, parseDecimal, parseDecimalChars, splitOnChar, digitsVal]
    · simp [hp, pyOr, parseDecimal, parseDecimalChars, splitOnChar, digitsVal]
    · by_cases hemp : ps = ""
      · simp [hp, hemp, pyOr, parseDecimal, parseDecimalChars, splitOnChar, digitsVal]
      · simp [hp, hemp, pyOr, hps]
  · simp [read_products, readRow, pyOr, dictInsert, parseDecimal, parseDecimalChars,
      splitOnChar, digitsVal]

/-- Witness for C7: a codeless row is skipped, a row with unparseable price
`"x2"` degrades to price 0, and an overwriting insert is what lookup sees. -/
theorem C7_catalog_load_witness :
    readRow [] ⟨none, some "", none, some "N", none, some "1"⟩ = [] ∧
    readRow [] ⟨some "B", none, none, some "N", none, some "x2"⟩ =
      dictInsert [] "B" ⟨(pyOr (pyOr (some "N") none) (some "")).getD "", 0⟩ ∧
    List.lookup "A" (dictInsert [("A", (⟨"W", 1⟩ : Product))] "A" ⟨"W2", 2⟩) =
      some ⟨"W2", 2⟩ :=
  ⟨C7_catalog_load.2.1 [] _ (Or.inl rfl) (Or.inr rfl) (Or.inl rfl),
   C7_catalog_load.2.2.1 [] _ "B" (by decide) (by decide)
     (Or.inr (Or.inr ⟨"x2", rfl, by simp [parseDecimal, parseDecimalChars, splitOnChar]⟩)),
   C7_catalog_load.2.2.2.1 _ "A" _⟩

end Billing
